import Mathlib

/-!
Verification of the curved state-label placement engine of the
Fantasy-Map-Generator repository.

The numeric model: JavaScript numbers are embedded as exact rationals
(`ℚ`). The remainder operator `%` of JavaScript (sign of the dividend,
truncating division) is embedded as `jsMod`. External collaborators
(the cell index `findClosestCell`, the feature and state tables of
`pack`, canvas bounds) are bundled in a `MapEnv` record of abstract
functions, exactly as the code reads them.
-/

namespace FMG

/-- Truncation toward zero of a rational, as JavaScript's integer
division underlying `%` behaves. -/
def ratTrunc (q : ℚ) : ℤ := if 0 ≤ q then ⌊q⌋ else ⌈q⌉

/-- JavaScript's `%` on numbers: `a % b = a - b * trunc (a / b)`. -/
def jsMod (a b : ℚ) : ℚ := a - b * (ratTrunc (a / b) : ℚ)

/-- `scoreRayAngle` of `src/src/utils/label-raycast.ts`: horizontality
preference of a single ray angle, quantized into six bands. -/
def scoreRayAngle (angle : ℚ) : ℚ :=
  if |(|jsMod angle 180|) - 90| / 90 = 1 then 1
  else if 0.75 ≤ |(|jsMod angle 180|) - 90| / 90 then 0.9
  else if 0.5 ≤ |(|jsMod angle 180|) - 90| / 90 then 0.6
  else if 0.25 ≤ |(|jsMod angle 180|) - 90| / 90 then 0.5
  else if 0.15 ≤ |(|jsMod angle 180|) - 90| / 90 then 0.2
  else 0.1

/-- `getAngleDelta` of `src/src/utils/label-raycast.ts`: angular delta
between two angles, normalized into `[0, 180]`. -/
def getAngleDelta (angle1 angle2 : ℚ) : ℚ :=
  if 180 < jsMod |angle1 - angle2| 360 then 360 - jsMod |angle1 - angle2| 360
  else jsMod |angle1 - angle2| 360

/-- `evaluateArc` of `src/src/utils/label-raycast.ts`: arc similarity of
two angles, from their proximities to the x-axis. -/
def evaluateArc (angle1 angle2 : ℚ) : ℚ :=
  1 - |(|jsMod angle1 180 - 90|) - (|jsMod angle2 180 - 90|)| / 90

/-- `scoreCurvature` of `src/src/utils/label-raycast.ts`: curvature
multiplier of a ray pair from delta-angle bands and arc similarity. -/
def scoreCurvature (angle1 angle2 : ℚ) : ℚ :=
  if getAngleDelta angle1 angle2 = 180 then 1
  else if getAngleDelta angle1 angle2 < 90 then 0
  else if getAngleDelta angle1 angle2 < 120 then 0.6 * evaluateArc angle1 angle2
  else if getAngleDelta angle1 angle2 < 140 then 0.7 * evaluateArc angle1 angle2
  else if getAngleDelta angle1 angle2 < 160 then 0.8 * evaluateArc angle1 angle2
  else evaluateArc angle1 angle2

/-- A ray cast from a state's pole, `Ray` of
`src/src/utils/label-raycast.ts`. -/
structure Ray where
  angle : ℚ
  length : ℚ
  x : ℚ
  y : ℚ
deriving DecidableEq

/-- The individual score of one ray inside `findBestRayPair`:
`length * scoreRayAngle(angle)`. -/
def rayScore (r : Ray) : ℚ := r.length * scoreRayAngle r.angle

/-- The score of one scanned pair inside `findBestRayPair`:
`(score1 + score2) * scoreCurvature(angle1, angle2)`. -/
def pairScore (p : Ray × Ray) : ℚ :=
  (rayScore p.1 + rayScore p.2) * scoreCurvature p.1.angle p.2.angle

/-- The pairs `(rays[i], rays[j])`, `i < j`, in the order the double
loop of `findBestRayPair` visits them: `i` ascending, then `j`
ascending. -/
def scanPairs : List Ray → List (Ray × Ray)
  | [] => []
  | r :: rest => rest.map (fun s => (r, s)) ++ scanPairs rest

/-- One step of the running best of `findBestRayPair`: the incoming
pair replaces the stored one exactly when its score is strictly
greater (`pairScore > bestScore`); the very first pair always beats
the initial `bestScore = -Infinity`. -/
def pickBetter (acc : Option (ℚ × (Ray × Ray))) (q : Ray × Ray) :
    Option (ℚ × (Ray × Ray)) :=
  match acc with
  | none => some (pairScore q, q)
  | some (s, p) => if s < pairScore q then some (pairScore q, q) else some (s, p)

/-- `findBestRayPair` of `src/src/utils/label-raycast.ts`. The source
returns `bestPair!` (a crash / undefined result when no pair was
scanned); this is embedded as `Option`, `none` standing for the
failing case. -/
def findBestRayPair (rays : List Ray) : Option (Ray × Ray) :=
  ((scanPairs rays).foldl pickBetter none).map Prod.snd

/-- A classified feature of the map, as `isInsideState` reads it:
`type === "lake"` becomes `isLake`, `feature.shoreline` the shoreline
cell list, `feature.cells` the cell count `cellsCount`. -/
structure Feature where
  isLake : Bool
  shoreline : List Nat
  cellsCount : Nat

/-- The external collaborators of the engine (the Boundary Oracle):
canvas bounds `graphWidth`/`graphHeight`, the cell index
`findClosestCell` as `closestCell`, the tables `cells.f` as
`cellFeature`, `features` as `featureOf` and `cells.state` as
`cellState`. -/
structure MapEnv where
  graphWidth : ℚ
  graphHeight : ℚ
  closestCell : ℚ → ℚ → Nat
  cellFeature : Nat → Nat
  featureOf : Nat → Feature
  cellState : Nat → Nat

/-- `isInnerLake` of `src/src/utils/label-raycast.ts`: every shoreline
cell of the lake belongs to the state. -/
def isInnerLake (env : MapEnv) (stateId : Nat) (f : Feature) : Bool :=
  f.shoreline.all (fun cellId => env.cellState cellId == stateId)

/-- `isSmallLake` of `src/src/utils/label-raycast.ts`:
`feature.cells <= maxLakeSize`. -/
def isSmallLake (maxLakeSize : ℚ) (f : Feature) : Bool :=
  decide ((f.cellsCount : ℚ) ≤ maxLakeSize)

/-- `isInsideState` of `src/src/utils/label-raycast.ts`: the
containment predicate of the Ray Caster. -/
def isInsideState (env : MapEnv) (stateId : Nat) (maxLakeSize : ℚ)
    (x y : ℚ) : Bool :=
  if x < 0 ∨ env.graphWidth < x ∨ y < 0 ∨ env.graphHeight < y then false
  else if (env.featureOf (env.cellFeature (env.closestCell x y))).isLake then
    isInnerLake env stateId (env.featureOf (env.cellFeature (env.closestCell x y))) ||
      isSmallLake maxLakeSize (env.featureOf (env.cellFeature (env.closestCell x y)))
  else env.cellState (env.closestCell x y) == stateId

/-- The `RaycastParams` record of `src/src/utils/label-raycast.ts`. -/
structure RaycastParams where
  stateId : Nat
  x0 : ℚ
  y0 : ℚ
  dx : ℚ
  dy : ℚ
  maxLakeSize : ℚ
  offset : ℚ

/-- The result record `{length, x, y}` of `raycast`. -/
structure RayHit where
  length : ℚ
  x : ℚ
  y : ℚ
deriving DecidableEq

/-- The acceptance test of one candidate length inside `raycast`: the
primary point and both perpendicular offset points are inside the
state. -/
def rayOk (env : MapEnv) (P : RaycastParams) (len : ℚ) : Bool :=
  isInsideState env P.stateId P.maxLakeSize
      (P.x0 + len * P.dx) (P.y0 + len * P.dy) &&
  isInsideState env P.stateId P.maxLakeSize
      (P.x0 + len * P.dx + -P.dy * P.offset) (P.y0 + len * P.dy + P.dx * P.offset) &&
  isInsideState env P.stateId P.maxLakeSize
      (P.x0 + len * P.dx + P.dy * P.offset) (P.y0 + len * P.dy + -P.dx * P.offset)

/-- The candidate lengths of the `raycast` loop:
`LENGTH_START = 5`, stepped by `LENGTH_STEP = 5` while strictly below
`LENGTH_MAX = 300` (so 5, 10, …, 295). -/
def raycastCandidates : List ℚ := (List.range' 1 59 1).map (fun k => ((5 * k : ℕ) : ℚ))

/-- The `raycast` loop: extend the ray while every candidate passes,
stop (break) at the first rejected candidate, keep the last accepted
ray. -/
def raycastGo (env : MapEnv) (P : RaycastParams) : List ℚ → RayHit → RayHit
  | [], ray => ray
  | len :: rest, ray =>
    if rayOk env P len then
      raycastGo env P rest ⟨len, P.x0 + len * P.dx, P.y0 + len * P.dy⟩
    else ray

/-- `raycast` of `src/src/utils/label-raycast.ts`, starting from the
zero-length ray at the reference point. -/
def raycast (env : MapEnv) (P : RaycastParams) : RayHit :=
  raycastGo env P raycastCandidates ⟨0, P.x0, P.y0⟩

/-- Modelled from the spec: the repository's rounding helper `rn`
(its source file is not under `src/`); the spec's fitting formulas
read `round(...)`, rounding to the nearest integer. -/
def rn (v : ℚ) : ℚ := ((round v : ℤ) : ℚ)

/-- Modelled from the spec: the repository's clamping helper `minmax`
(its source file is not under `src/`); the spec's fitting formulas
read `clamp(value, lo, hi)`. -/
def minmax (v lo hi : ℚ) : ℚ := min (max v lo) hi

/-- `max(lines.map(line => line.length)) || 0` of `getLinesAndRatio`:
the longest line length, `0` for no lines. -/
def d3maxLen (lines : List String) : ℕ := (lines.map String.length).foldr max 0

/-- `getLinesAndRatio` of `src/modules/labels-generator.ts` (staged as
`src/unnamed/part_000`). The two-line splitter `splitInTwo` is
repository code not under `src/`; it is taken as a parameter `split`,
per the spec's open policy for the exact split rule. -/
def getLinesAndRatio (split : String → List String) (mode : String)
    (name fullName : String) (pathLength : ℚ) : List String × ℚ :=
  if mode = "short" then
    ([name], minmax (rn (pathLength / (name.length : ℚ) * 60)) 50 150)
  else if (fullName.length : ℚ) * 2 < pathLength then
    ([fullName], minmax (rn (pathLength / (fullName.length : ℚ) * 70)) 70 170)
  else
    (split fullName,
      minmax (rn (pathLength / (d3maxLen (split fullName) : ℚ) * 60)) 70 150)

/-- The text chosen by the fallback of `renderAndRefineLabels`
(`src/src/renderers/draw-state-labels.ts`) when the multi-line layout
fails the containment check: the full name when
`pathLength > fullName.length * 1.8`, else the short name. -/
def fallbackText (name fullName : String) (pathLength : ℚ) : String :=
  if (fullName.length : ℚ) * 1.8 < pathLength then fullName else name

/-- The fallback single-line layout of `renderAndRefineLabels`: the
chosen text and the corrected ratio
`minmax(rn((pathLength / text.length) * 50), 50, 130)`. -/
def fallbackLabel (name fullName : String) (pathLength : ℚ) : String × ℚ :=
  (fallbackText name fullName pathLength,
    minmax (rn (pathLength / ((fallbackText name fullName pathLength).length : ℚ) * 50))
      50 130)

/-- The containment test of one sample point inside
`checkIfLabelFitsState`:
`stateIds[findClosestCell(x, y)] === stateId`. -/
def fitsInside (env : MapEnv) (stateId : Nat) (p : ℚ × ℚ) : Bool :=
  env.cellState (env.closestCell p.1 p.2) == stateId

/-- The six sample points of `checkIfLabelFitsState`: the four
bounding-box corners plus the bottom and top midpoints, relative to
the rendered center. -/
def labelSamplePoints (halfwidth halfheight : ℚ) : List (ℚ × ℚ) :=
  [(-halfwidth, -halfheight), (halfwidth, -halfheight), (halfwidth, halfheight),
    (-halfwidth, halfheight), (0, halfheight), (0, -halfheight)]

/-- The rotation of a sample point by the path angle about the
rendered center `(cx, cy)`; the sine and cosine of the angle enter as
parameters (the source computes them with `Math.sin`/`Math.cos`). -/
def rotateAbout (cx cy sinA cosA : ℚ) (p : ℚ × ℚ) : ℚ × ℚ :=
  (cx + p.1 * cosA - p.2 * sinA, cy + p.1 * sinA + p.2 * cosA)

/-- The counting loop of `checkIfLabelFitsState`: increment on an
inside point, return `true` as soon as the count exceeds 4, `false`
after the last point. -/
def fitsLoop (env : MapEnv) (stateId : Nat) : List (ℚ × ℚ) → Nat → Bool
  | [], _ => false
  | p :: rest, n =>
    if 4 < (if fitsInside env stateId p then n + 1 else n) then true
    else fitsLoop env stateId rest (if fitsInside env stateId p then n + 1 else n)

/-- `checkIfLabelFitsState` of `src/modules/labels-generator.ts`
(staged as `src/unnamed/part_000`). -/
def checkIfLabelFitsState (env : MapEnv) (stateId : Nat)
    (cx cy sinA cosA halfwidth halfheight : ℚ) : Bool :=
  fitsLoop env stateId
    ((labelSamplePoints halfwidth halfheight).map (rotateAbout cx cy sinA cosA)) 0

/-- The path points built by `generateStateLabelsData`: the two chosen
ray endpoints around the state pole, reversed when the first ray's x
exceeds the second's. -/
def buildPathPoints (ray1 ray2 : Ray) (pole : ℚ × ℚ) : List (ℚ × ℚ) :=
  if ray2.x < ray1.x then [(ray1.x, ray1.y), pole, (ray2.x, ray2.y)].reverse
  else [(ray1.x, ray1.y), pole, (ray2.x, ray2.y)]

/-- The new first path point of the corrective stretch of
`renderAndRefineLabels`: `[x1 + dx - dx*mod, y1 + dy - dy*mod]` with
`dx = (x2-x1)/2`, `dy = (y2-y1)/2`. -/
def pathStretchFirst (p1 p2 : ℚ × ℚ) (mod : ℚ) : ℚ × ℚ :=
  (p1.1 + (p2.1 - p1.1) / 2 - (p2.1 - p1.1) / 2 * mod,
    p1.2 + (p2.2 - p1.2) / 2 - (p2.2 - p1.2) / 2 * mod)

/-- The new last path point of the corrective stretch:
`[x2 - dx + dx*mod, y2 - dy + dy*mod]`. -/
def pathStretchLast (p1 p2 : ℚ × ℚ) (mod : ℚ) : ℚ × ℚ :=
  (p2.1 - (p2.1 - p1.1) / 2 + (p2.1 - p1.1) / 2 * mod,
    p2.2 - (p2.2 - p1.2) / 2 + (p2.2 - p1.2) / 2 * mod)

/-- The corrective stretch of `renderAndRefineLabels`
(`src/src/renderers/draw-state-labels.ts`, the "prolongate path if
it's too short" block): replace the first and last path points,
keeping the rest. -/
def stretchPath (pts : List (ℚ × ℚ)) (mod : ℚ) : List (ℚ × ℚ) :=
  (pts.set 0 (pathStretchFirst (pts.headD (0, 0)) (pts.getLastD (0, 0)) mod)).set
    (pts.length - 1) (pathStretchLast (pts.headD (0, 0)) (pts.getLastD (0, 0)) mod)

/-- A label of the persisted store `pack.labels`, with its identity
`i`, its `type` tag and its remaining payload summarized as `name`. -/
structure StoredLabel where
  i : String
  type : String
  name : String
deriving DecidableEq

/-- The id of a state label: `` `stateLabel${stateId}` ``. -/
def stateLabelId (stateId : Nat) : String := "stateLabel" ++ toString stateId

/-- The filter step of `stateLabelsRenderer`
(`src/src/renderers/draw-state-labels.ts`) on a region-id list:
`pack.labels = pack.labels.filter(l => !labelsToRemove.includes(l.i))`
with `labelsToRemove = list.map(stateId => stateLabel{stateId})`. -/
def removeStateLabels (list : List Nat) (labels : List StoredLabel) :
    List StoredLabel :=
  labels.filter (fun l => !(decide (l.i ∈ list.map stateLabelId)))

/-- The whole store update of `stateLabelsRenderer` for a region-id
list: filtered remove, then `pack.labels.push(...refinedLabels)`. -/
def regenerateStateLabels (list : List Nat) (labels newLabels : List StoredLabel) :
    List StoredLabel :=
  removeStateLabels list labels ++ newLabels

end FMG

namespace FMG

theorem jsMod_eq_fract {x b : ℚ} (hx : 0 ≤ x) (hb : 0 < b) :
    jsMod x b = b * Int.fract (x / b) := by
  unfold jsMod ratTrunc Int.fract
  rw [if_pos (div_nonneg hx hb.le), mul_sub, mul_comm b (x / b),
    div_mul_cancel₀ x (ne_of_gt hb)]

theorem jsMod_nonneg {x b : ℚ} (hx : 0 ≤ x) (hb : 0 < b) : 0 ≤ jsMod x b := by
  rw [jsMod_eq_fract hx hb]
  exact mul_nonneg hb.le (Int.fract_nonneg _)

theorem jsMod_lt {x b : ℚ} (hx : 0 ≤ x) (hb : 0 < b) : jsMod x b < b := by
  rw [jsMod_eq_fract hx hb]
  calc b * Int.fract (x / b) < b * 1 :=
        mul_lt_mul_of_pos_left (Int.fract_lt_one _) hb
    _ = b := mul_one b

theorem getAngleDelta_mem (a1 a2 : ℚ) :
    0 ≤ getAngleDelta a1 a2 ∧ getAngleDelta a1 a2 ≤ 180 := by
  have h0 : (0:ℚ) ≤ |a1 - a2| := abs_nonneg _
  have hb : (0:ℚ) < 360 := by norm_num
  have hge := jsMod_nonneg h0 hb
  have hlt := jsMod_lt h0 hb
  unfold getAngleDelta
  split_ifs with h
  · constructor <;> linarith
  · constructor <;> linarith

/-- The running best of the scan, started from a current best `p`,
lands on the first score-maximal element of `p :: l`: everything
before it scores strictly less, everything after at most as much. -/
theorem foldl_pickBetter_spec :
    ∀ (l : List (Ray × Ray)) (p : Ray × Ray),
      ∃ r l1 l2, l.foldl pickBetter (some (pairScore p, p)) = some (pairScore r, r) ∧
        p :: l = l1 ++ r :: l2 ∧ (∀ q ∈ l1, pairScore q < pairScore r) ∧
        (∀ q ∈ l2, pairScore q ≤ pairScore r)
  | [], p => ⟨p, [], [], rfl, rfl, by simp, by simp⟩
  | x :: xs, p => by
    rw [List.foldl_cons]
    have hstep : pickBetter (some (pairScore p, p)) x =
        if pairScore p < pairScore x then some (pairScore x, x)
        else some (pairScore p, p) := rfl
    by_cases hlt : pairScore p < pairScore x
    · rw [hstep, if_pos hlt]
      obtain ⟨r, l1, l2, hfold, hdecomp, hl1, hl2⟩ := foldl_pickBetter_spec xs x
      have hxmem : x ∈ x :: xs := List.mem_cons_self x xs
      have hxle : pairScore x ≤ pairScore r := by
        rw [hdecomp] at hxmem
        rcases List.mem_append.1 hxmem with hm | hm
        · exact (hl1 x hm).le
        · rcases List.mem_cons.1 hm with hm | hm
          · rw [hm]
          · exact hl2 x hm
      refine ⟨r, p :: l1, l2, hfold, ?_, ?_, hl2⟩
      · rw [List.cons_append, ← hdecomp]
      · intro q hq
        rcases List.mem_cons.1 hq with hq | hq
        · rw [hq]
          exact lt_of_lt_of_le hlt hxle
        · exact hl1 q hq
    · rw [hstep, if_neg hlt]
      obtain ⟨r, l1, l2, hfold, hdecomp, hl1, hl2⟩ := foldl_pickBetter_spec xs p
      match l1, hdecomp, hl1 with
      | [], hdecomp, hl1 =>
        rw [List.nil_append] at hdecomp
        obtain ⟨hpr, hxs⟩ := List.cons_eq_cons.1 hdecomp
        refine ⟨r, [], x :: xs, hfold, by rw [List.nil_append, ← hpr], by simp, ?_⟩
        intro q hq
        rcases List.mem_cons.1 hq with hq | hq
        · rw [hq, ← hpr]
          exact not_lt.1 hlt
        · rw [hxs] at hq
          exact hl2 q hq
      | a :: l1t, hdecomp, hl1 =>
        rw [List.cons_append] at hdecomp
        obtain ⟨hpa, hxs⟩ := List.cons_eq_cons.1 hdecomp
        have hpr : pairScore p < pairScore r := by
          rw [hpa]
          exact hl1 a (List.mem_cons_self a l1t)
        refine ⟨r, p :: x :: l1t, l2, hfold, ?_, ?_, hl2⟩
        · rw [List.cons_append, List.cons_append, ← hxs]
        · intro q hq
          rcases List.mem_cons.1 hq with hq | hq
          · rw [hq]
            exact hpr
          · rcases List.mem_cons.1 hq with hq | hq
            · rw [hq]
              exact lt_of_le_of_lt (not_lt.1 hlt) hpr
            · exact hl1 q (List.mem_cons_of_mem a hq)

end FMG

namespace FMG

/-- C1: the curvature multiplier follows exactly the spec's bands on
the normalized angular delta `d ∈ [0,180]`: `d = 180 ↦ 1`; `d < 90 ↦ 0`
(so an acute pair's whole `pairScore` is 0 regardless of the two
rays' lengths or individual scores);
`d ∈ [90,120) ↦ 0.6·similarity`; `d ∈ [120,140) ↦ 0.7·similarity`;
`d ∈ [140,160) ↦ 0.8·similarity`; `d ∈ [160,180) ↦ similarity`, where
`similarity = 1 - |proximity(a1) - proximity(a2)|/90` and
`proximity(a) = |a mod 180 - 90|`. -/
theorem c1_scoreCurvature_bands (a1 a2 : ℚ) :
    (0 ≤ getAngleDelta a1 a2 ∧ getAngleDelta a1 a2 ≤ 180) ∧
    (getAngleDelta a1 a2 = 180 → scoreCurvature a1 a2 = 1) ∧
    (getAngleDelta a1 a2 < 90 → scoreCurvature a1 a2 = 0) ∧
    (90 ≤ getAngleDelta a1 a2 ∧ getAngleDelta a1 a2 < 120 →
      scoreCurvature a1 a2 =
        0.6 * (1 - |(|jsMod a1 180 - 90|) - (|jsMod a2 180 - 90|)| / 90)) ∧
    (120 ≤ getAngleDelta a1 a2 ∧ getAngleDelta a1 a2 < 140 →
      scoreCurvature a1 a2 =
        0.7 * (1 - |(|jsMod a1 180 - 90|) - (|jsMod a2 180 - 90|)| / 90)) ∧
    (140 ≤ getAngleDelta a1 a2 ∧ getAngleDelta a1 a2 < 160 →
      scoreCurvature a1 a2 =
        0.8 * (1 - |(|jsMod a1 180 - 90|) - (|jsMod a2 180 - 90|)| / 90)) ∧
    (160 ≤ getAngleDelta a1 a2 ∧ getAngleDelta a1 a2 < 180 →
      scoreCurvature a1 a2 =
        1 - |(|jsMod a1 180 - 90|) - (|jsMod a2 180 - 90|)| / 90) ∧
    (getAngleDelta a1 a2 < 90 → ∀ r1 r2 : Ray, r1.angle = a1 → r2.angle = a2 →
      pairScore (r1, r2) = 0) := by
  have hacute : getAngleDelta a1 a2 < 90 → scoreCurvature a1 a2 = 0 := by
    intro h
    unfold scoreCurvature
    rw [if_neg (by intro he; rw [he] at h; linarith), if_pos h]
  refine ⟨getAngleDelta_mem a1 a2, ?_, hacute, ?_, ?_, ?_, ?_, ?_⟩
  · intro h
    unfold scoreCurvature
    rw [if_pos h]
  · rintro ⟨h1, h2⟩
    unfold scoreCurvature evaluateArc
    rw [if_neg (by intro he; rw [he] at h2; linarith), if_neg (not_lt.2 h1),
      if_pos h2]
  · rintro ⟨h1, h2⟩
    unfold scoreCurvature evaluateArc
    rw [if_neg (by intro he; rw [he] at h2; linarith),
      if_neg (by linarith), if_neg (not_lt.2 h1), if_pos h2]
  · rintro ⟨h1, h2⟩
    unfold scoreCurvature evaluateArc
    rw [if_neg (by intro he; rw [he] at h2; linarith),
      if_neg (by linarith), if_neg (by linarith), if_neg (not_lt.2 h1),
      if_pos h2]
  · rintro ⟨h1, h2⟩
    unfold scoreCurvature evaluateArc
    rw [if_neg (by intro he; rw [he] at h2; linarith),
      if_neg (by linarith), if_neg (by linarith), if_neg (by linarith),
      if_neg (not_lt.2 h1)]
  · intro h r1 r2 h1 h2
    unfold pairScore
    rw [show (r1, r2).1.angle = a1 from h1, show (r1, r2).2.angle = a2 from h2,
      hacute h, mul_zero]

/-- C2: for at least 2 rays, `findBestRayPair` returns a pair of the
(i ascending, then j ascending) scan whose `pairScore` is maximal over
all scanned pairs, and which is the first pair of the scan attaining
that score (every earlier pair scores strictly less — the comparison
is a strict greater-than); with fewer than 2 rays it fails (`none`,
embedding the source's `bestPair!` on a null best pair). -/
theorem c2_findBestRayPair_spec (rays : List Ray) :
    (rays.length < 2 → findBestRayPair rays = none) ∧
    (2 ≤ rays.length →
      ∃ r l1 l2, findBestRayPair rays = some r ∧
        scanPairs rays = l1 ++ r :: l2 ∧
        (∀ q ∈ l1, pairScore q < pairScore r) ∧
        (∀ q ∈ l2, pairScore q ≤ pairScore r)) := by
  constructor
  · intro hlen
    match rays, hlen with
    | [], _ => rfl
    | [a], _ => rfl
    | a :: b :: t, hlen => simp only [List.length_cons] at hlen; omega
  · intro hlen
    match rays, hlen with
    | a :: b :: t, _ =>
      have hscan : scanPairs (a :: b :: t) =
          (a, b) :: (t.map (fun s => (a, s)) ++ scanPairs (b :: t)) := by
        show (b :: t).map (fun s => (a, s)) ++ scanPairs (b :: t) = _
        rw [List.map_cons, List.cons_append]
      obtain ⟨r, l1, l2, hfold, hdecomp, hl1, hl2⟩ :=
        foldl_pickBetter_spec (t.map (fun s => (a, s)) ++ scanPairs (b :: t)) (a, b)
      refine ⟨r, l1, l2, ?_, ?_, hl1, hl2⟩
      · unfold findBestRayPair
        rw [hscan, List.foldl_cons]
        have hfirst : pickBetter none (a, b) = some (pairScore (a, b), (a, b)) := rfl
        rw [hfirst, hfold]
        rfl
      · rw [hscan, hdecomp]

/-- The break-at-first-failure loop of `raycast` keeps the last
candidate of the accepted (`takeWhile`) prefix, or its start value
when the very first candidate already fails. -/
theorem raycastGo_spec (env : MapEnv) (P : RaycastParams) :
    ∀ (l : List ℚ) (r : RayHit),
      raycastGo env P l r =
        (l.takeWhile (rayOk env P)).getLast?.elim r
          (fun L => ⟨L, P.x0 + L * P.dx, P.y0 + L * P.dy⟩)
  | [], r => rfl
  | len :: rest, r => by
    have hgo : raycastGo env P (len :: rest) r =
        if rayOk env P len then
          raycastGo env P rest ⟨len, P.x0 + len * P.dx, P.y0 + len * P.dy⟩
        else r := rfl
    rw [hgo, List.takeWhile_cons]
    by_cases h : rayOk env P len = true
    · rw [if_pos h, if_pos h,
        raycastGo_spec env P rest ⟨len, P.x0 + len * P.dx, P.y0 + len * P.dy⟩,
        List.getLast?_cons]
      cases hm : (rest.takeWhile (rayOk env P)).getLast? with
      | none => simp
      | some L => simp
    · rw [if_neg h, if_neg h]
      rfl

/-- C3: the Ray Caster tests candidate lengths 5, 10, … strictly below
the maximum 300 (each a multiple of 5, and every such multiple is
tested), accepts a candidate only when the primary point and both
perpendicular offsets are inside (`rayOk`), stops at the first
rejection and returns the last accepted ray; when the first candidate
(length 5) is rejected it returns the zero-length ray at the reference
point. -/
theorem c3_raycast_spec (env : MapEnv) (P : RaycastParams) :
    (∀ c ∈ raycastCandidates, 5 ≤ c ∧ c < 300 ∧ ∃ k : ℕ, c = 5 * k) ∧
    (∀ k : ℕ, 1 ≤ k → k ≤ 59 → ((5 * k : ℕ) : ℚ) ∈ raycastCandidates) ∧
    (∀ len : ℚ, rayOk env P len = true ↔
      (isInsideState env P.stateId P.maxLakeSize
          (P.x0 + len * P.dx) (P.y0 + len * P.dy) = true ∧
        isInsideState env P.stateId P.maxLakeSize
          (P.x0 + len * P.dx + -P.dy * P.offset) (P.y0 + len * P.dy + P.dx * P.offset) = true ∧
        isInsideState env P.stateId P.maxLakeSize
          (P.x0 + len * P.dx + P.dy * P.offset) (P.y0 + len * P.dy + -P.dx * P.offset) = true)) ∧
    (raycastCandidates.takeWhile (rayOk env P) = [] →
      raycast env P = ⟨0, P.x0, P.y0⟩) ∧
    (∀ L : ℚ, (raycastCandidates.takeWhile (rayOk env P)).getLast? = some L →
      raycast env P = ⟨L, P.x0 + L * P.dx, P.y0 + L * P.dy⟩) ∧
    (rayOk env P 5 = false → raycast env P = ⟨0, P.x0, P.y0⟩) := by
  have hcands : ∀ c ∈ raycastCandidates, 5 ≤ c ∧ c < 300 ∧ ∃ k : ℕ, c = 5 * k := by
    intro c hc
    obtain ⟨k, hk, rfl⟩ := List.mem_map.1 hc
    rw [List.mem_range'_1] at hk
    refine ⟨?_, ?_, k, by push_cast; ring⟩
    · have : (5 * 1 : ℕ) ≤ 5 * k := Nat.mul_le_mul_left 5 hk.1
      exact_mod_cast this
    · have : (5 * k : ℕ) ≤ 5 * 59 := Nat.mul_le_mul_left 5 (by omega)
      calc ((5 * k : ℕ) : ℚ) ≤ ((5 * 59 : ℕ) : ℚ) := by exact_mod_cast this
        _ < 300 := by norm_num
  have hmem : ∀ k : ℕ, 1 ≤ k → k ≤ 59 → ((5 * k : ℕ) : ℚ) ∈ raycastCandidates := by
    intro k h1 h2
    exact List.mem_map.2 ⟨k, List.mem_range'_1.2 ⟨h1, by omega⟩, rfl⟩
  have hnil : raycastCandidates.takeWhile (rayOk env P) = [] →
      raycast env P = ⟨0, P.x0, P.y0⟩ := by
    intro h
    unfold raycast
    rw [raycastGo_spec env P raycastCandidates ⟨0, P.x0, P.y0⟩, h]
    rfl
  refine ⟨hcands, hmem, ?_, hnil, ?_, ?_⟩
  · intro len
    unfold rayOk
    simp [Bool.and_eq_true, and_assoc]
  · intro L hL
    unfold raycast
    rw [raycastGo_spec env P raycastCandidates ⟨0, P.x0, P.y0⟩, hL]
    rfl
  · intro h5
    apply hnil
    have hhead : raycastCandidates = (5 : ℚ) ::
        (List.range' 2 58 1).map (fun k => ((5 * k : ℕ) : ℚ)) := by
      unfold raycastCandidates
      rw [show (59 : ℕ) = 58 + 1 from rfl, List.range'_succ, List.map_cons]
      norm_num
    rw [hhead, List.takeWhile_cons, if_neg (by rw [h5]; exact Bool.false_ne_true)]

/-- C4: the containment predicate classifies a point as inside the
state exactly when it lies in canvas bounds and, if its cell is a lake
feature, the lake's whole shoreline belongs to the state or its cell
count is at most `maxLakeSize` (independently of the lake cell's own
owner), and otherwise its cell's owning state is the target state. -/
theorem c4_isInsideState_spec (env : MapEnv) (stateId : Nat)
    (maxLakeSize : ℚ) (x y : ℚ) :
    isInsideState env stateId maxLakeSize x y = true ↔
      ((0 ≤ x ∧ x ≤ env.graphWidth ∧ 0 ≤ y ∧ y ≤ env.graphHeight) ∧
        (((env.featureOf (env.cellFeature (env.closestCell x y))).isLake = true →
            (∀ c ∈ (env.featureOf (env.cellFeature (env.closestCell x y))).shoreline,
                env.cellState c = stateId) ∨
              ((env.featureOf (env.cellFeature (env.closestCell x y))).cellsCount : ℚ) ≤
                maxLakeSize) ∧
          ((env.featureOf (env.cellFeature (env.closestCell x y))).isLake = false →
            env.cellState (env.closestCell x y) = stateId))) := by
  unfold isInsideState
  by_cases hb : x < 0 ∨ env.graphWidth < x ∨ y < 0 ∨ env.graphHeight < y
  · rw [if_pos hb]
    simp only [Bool.false_eq_true, false_iff]
    rintro ⟨⟨hx0, hxw, hy0, hyh⟩, -⟩
    rcases hb with h | h | h | h <;> linarith
  · rw [if_neg hb]
    push_neg at hb
    obtain ⟨hx0, hxw, hy0, hyh⟩ := hb
    split_ifs with hL
    · simp only [isInnerLake, isSmallLake, Bool.or_eq_true, List.all_eq_true,
        beq_iff_eq, decide_eq_true_eq]
      constructor
      · intro h
        exact ⟨⟨hx0, hxw, hy0, hyh⟩, fun _ => h, fun hf => absurd hL (by rw [hf]; simp)⟩
      · rintro ⟨-, h, -⟩
        exact h hL
    · simp only [beq_iff_eq]
      constructor
      · intro h
        refine ⟨⟨hx0, hxw, hy0, hyh⟩, fun ht => absurd ht hL, fun _ => h⟩
      · rintro ⟨-, -, h⟩
        exact h (by revert hL; cases (env.featureOf (env.cellFeature (env.closestCell x y))).isLake <;> simp)

/-- C5: the Path-to-Text Fitter: mode `"short"` gives one line with
the short name and ratio `clamp(round(60·pathLength/len), 50, 150)`;
any other mode gives one line with the full name and ratio
`clamp(round(70·pathLength/len), 70, 170)` exactly when
`pathLength > 2·len(fullName)` (at equality the two-line branch is
taken), and otherwise two lines from the split of the full name, with
ratio `clamp(round(60·pathLength/maxLineLength), 70, 150)` from the
longer line. -/
theorem c5_getLinesAndRatio_spec (split : String → List String)
    (mode name fullName : String) (pl : ℚ)
    (h1 : 0 < name.length) (h2 : 0 < fullName.length) :
    (mode = "short" →
      getLinesAndRatio split mode name fullName pl =
        ([name], minmax (rn (60 * pl / (name.length : ℚ))) 50 150)) ∧
    (mode ≠ "short" → (fullName.length : ℚ) * 2 < pl →
      getLinesAndRatio split mode name fullName pl =
        ([fullName], minmax (rn (70 * pl / (fullName.length : ℚ))) 70 170)) ∧
    (mode ≠ "short" → pl ≤ (fullName.length : ℚ) * 2 →
      getLinesAndRatio split mode name fullName pl =
        (split fullName,
          minmax (rn (60 * pl / (d3maxLen (split fullName) : ℚ))) 70 150)) := by
  refine ⟨?_, ?_, ?_⟩
  · intro hm
    unfold getLinesAndRatio
    rw [if_pos hm,
      show pl / (name.length : ℚ) * 60 = 60 * pl / (name.length : ℚ) from by ring]
  · intro hm hp
    unfold getLinesAndRatio
    rw [if_neg hm, if_pos hp,
      show pl / (fullName.length : ℚ) * 70 = 70 * pl / (fullName.length : ℚ) from by ring]
  · intro hm hp
    unfold getLinesAndRatio
    rw [if_neg hm, if_neg (not_lt.2 hp),
      show pl / (d3maxLen (split fullName) : ℚ) * 60 =
        60 * pl / (d3maxLen (split fullName) : ℚ) from by ring]

/-- Witness for C5 at the spec's own example: mode `"short"`, name
`"Rus"`, full name `"Russia"`, path length 30. -/
theorem c5_witness :
    ("short" = "short" →
      getLinesAndRatio (fun s => [s]) "short" "Rus" "Russia" 30 =
        (["Rus"], minmax (rn (60 * 30 / ("Rus".length : ℚ))) 50 150)) ∧
    ("short" ≠ "short" → ("Russia".length : ℚ) * 2 < 30 →
      getLinesAndRatio (fun s => [s]) "short" "Rus" "Russia" 30 =
        (["Russia"], minmax (rn (70 * 30 / ("Russia".length : ℚ))) 70 170)) ∧
    ("short" ≠ "short" → (30 : ℚ) ≤ ("Russia".length : ℚ) * 2 →
      getLinesAndRatio (fun s => [s]) "short" "Rus" "Russia" 30 =
        (["Russia"], minmax (rn (60 * 30 / (d3maxLen ["Russia"] : ℚ))) 70 150)) :=
  c5_getLinesAndRatio_spec (fun s => [s]) "short" "Rus" "Russia" 30
    (by decide) (by decide)

/-- The counting loop of the Containment Verifier, started at a count
of at most 4, returns `true` exactly when the final count of inside
points exceeds 4. -/
theorem fitsLoop_spec (env : MapEnv) (stateId : Nat) :
    ∀ (l : List (ℚ × ℚ)) (n : Nat), n ≤ 4 →
      (fitsLoop env stateId l n = true ↔
        4 < n + l.countP (fitsInside env stateId))
  | [], n, hn => by
    simp only [fitsLoop, List.countP_nil, Nat.add_zero, Bool.false_eq_true, false_iff]
    omega
  | p :: rest, n, hn => by
    have hstep : fitsLoop env stateId (p :: rest) n =
        if 4 < (if fitsInside env stateId p then n + 1 else n) then true
        else fitsLoop env stateId rest (if fitsInside env stateId p then n + 1 else n) := rfl
    rw [hstep, List.countP_cons]
    by_cases hp : fitsInside env stateId p = true
    · simp only [if_pos hp]
      by_cases h4 : 4 < n + 1
      · rw [if_pos h4]
        simp only [true_iff]
        omega
      · rw [if_neg h4, fitsLoop_spec env stateId rest (n + 1) (by omega)]
        omega
    · simp only [if_neg hp]
      rw [if_neg (by omega : ¬ 4 < n), fitsLoop_spec env stateId rest n hn]
      omega

/-- C6: the Containment Verifier builds exactly the 6 rotated samples
of the text's bounding box (four corners plus bottom and top
midpoints, rotated by the path angle about the rendered center) and
returns `true` exactly when more than 4 of them resolve to cells of
the target state: 5 or 6 inside give `true`, 4 or fewer give
`false`. -/
theorem c6_checkIfLabelFitsState_spec (env : MapEnv) (stateId : Nat)
    (cx cy sinA cosA halfwidth halfheight : ℚ) :
    ((labelSamplePoints halfwidth halfheight).map
        (rotateAbout cx cy sinA cosA)).length = 6 ∧
    (checkIfLabelFitsState env stateId cx cy sinA cosA halfwidth halfheight = true ↔
      4 < ((labelSamplePoints halfwidth halfheight).map
          (rotateAbout cx cy sinA cosA)).countP (fitsInside env stateId)) ∧
    (5 ≤ ((labelSamplePoints halfwidth halfheight).map
        (rotateAbout cx cy sinA cosA)).countP (fitsInside env stateId) →
      checkIfLabelFitsState env stateId cx cy sinA cosA halfwidth halfheight = true) ∧
    (((labelSamplePoints halfwidth halfheight).map
        (rotateAbout cx cy sinA cosA)).countP (fitsInside env stateId) ≤ 4 →
      checkIfLabelFitsState env stateId cx cy sinA cosA halfwidth halfheight = false) := by
  have hiff := fitsLoop_spec env stateId
    ((labelSamplePoints halfwidth halfheight).map (rotateAbout cx cy sinA cosA)) 0
    (by omega)
  rw [Nat.zero_add] at hiff
  refine ⟨rfl, hiff, fun h5 => hiff.2 (by omega), fun h4 => ?_⟩
  have hne : ¬ (checkIfLabelFitsState env stateId cx cy sinA cosA halfwidth halfheight
      = true) := fun hc => absurd (hiff.1 hc) (by omega)
  exact Bool.eq_false_iff.2 hne

/-- Counterexample for C7: at short name `"Rus"`, full name
`"Russia"`, path length 30 the fallback chooses the full name but its
recomputed ratio is 130, not the claimed one-line-formula value
`clamp(round(60·30/6), 50, 150) = 150`. -/
theorem c7_counterexample :
    (fallbackLabel "Rus" "Russia" 30).2 ≠
      minmax (rn (60 * 30 / ("Russia".length : ℚ))) 50 150 := by
  have hR : ("Russia".length : ℚ) = 6 := by
    norm_num [show "Russia".length = 6 from rfl]
  have hx : fallbackText "Rus" "Russia" 30 = "Russia" := by
    unfold fallbackText
    rw [if_pos (by rw [hR]; norm_num)]
  have h1 : (fallbackLabel "Rus" "Russia" 30).2 = 130 := by
    unfold fallbackLabel
    rw [hx]
    unfold minmax rn
    rw [hR]
    norm_num
  rw [h1]
  unfold minmax rn
  rw [hR]
  norm_num

/-- C7 (amended): when the verifier rejects a multi-line layout the
fallback renders one line, the full name exactly when
`pathLength > 1.8·len(fullName)` and the short name otherwise, and
recomputes the ratio as `clamp(round(50·pathLength/len(text)), 50,
130)` (the source uses factor 50 and clamp bounds [50, 130], not the
one-line formula's 60 and [50, 150]); no error is surfaced. -/
theorem c7_fallback_spec (name fullName : String) (pl : ℚ)
    (h1 : 0 < name.length) (h2 : 0 < fullName.length) :
    ((fullName.length : ℚ) * 1.8 < pl →
      fallbackLabel name fullName pl =
        (fullName, minmax (rn (50 * pl / (fullName.length : ℚ))) 50 130)) ∧
    (pl ≤ (fullName.length : ℚ) * 1.8 →
      fallbackLabel name fullName pl =
        (name, minmax (rn (50 * pl / (name.length : ℚ))) 50 130)) := by
  constructor
  · intro h
    unfold fallbackLabel fallbackText
    rw [if_pos h,
      show pl / (fullName.length : ℚ) * 50 = 50 * pl / (fullName.length : ℚ) from by ring]
  · intro h
    unfold fallbackLabel fallbackText
    rw [if_neg (not_lt.2 h),
      show pl / (name.length : ℚ) * 50 = 50 * pl / (name.length : ℚ) from by ring]

/-- Witness for C7 (amended) at short name `"Rus"`, full name
`"Russia"`, path length 30. -/
theorem c7_witness :
    (("Russia".length : ℚ) * 1.8 < 30 →
      fallbackLabel "Rus" "Russia" 30 =
        ("Russia", minmax (rn (50 * 30 / ("Russia".length : ℚ))) 50 130)) ∧
    ((30 : ℚ) ≤ ("Russia".length : ℚ) * 1.8 →
      fallbackLabel "Rus" "Russia" 30 =
        ("Rus", minmax (rn (50 * 30 / ("Rus".length : ℚ))) 50 130)) :=
  c7_fallback_spec "Rus" "Russia" 30 (by decide) (by decide)

/-- Setting the last position of a nonempty list makes the written
value its last element. -/
theorem getLastD_set_last : ∀ (l : List (ℚ × ℚ)) (w d : ℚ × ℚ), l ≠ [] →
    (l.set (l.length - 1) w).getLastD d = w
  | [x], w, d, _ => rfl
  | x :: y :: t, w, d, _ => by
    have hlen : (x :: y :: t).length - 1 = ((y :: t).length - 1) + 1 := by
      simp [List.length_cons]
    rw [hlen, List.set_cons_succ, List.getLastD_cons]
    exact getLastD_set_last (y :: t) w x (by simp)

/-- C8: a built label path has at least 2 points (it has 3: the two
ray endpoints with the pole between them) and its first x-coordinate
is at most its last; the corrective stretch (with a lengthening factor
`mod ≥ 1`) keeps the point count and that canonical x-ordering. -/
theorem c8_labelPath_invariant (r1 r2 : Ray) (pole : ℚ × ℚ)
    (pts : List (ℚ × ℚ)) (mod : ℚ) (hlen : 2 ≤ pts.length) (hmod : 1 ≤ mod)
    (hord : (pts.headD (0, 0)).1 ≤ (pts.getLastD (0, 0)).1) :
    2 ≤ (buildPathPoints r1 r2 pole).length ∧
    ((buildPathPoints r1 r2 pole).headD (0, 0)).1 ≤
      ((buildPathPoints r1 r2 pole).getLastD (0, 0)).1 ∧
    (stretchPath pts mod).length = pts.length ∧
    ((stretchPath pts mod).headD (0, 0)).1 ≤
      ((stretchPath pts mod).getLastD (0, 0)).1 := by
  refine ⟨?_, ?_, ?_, ?_⟩
  · unfold buildPathPoints
    split_ifs <;> simp
  · unfold buildPathPoints
    split_ifs with h <;> simp [List.getLastD_cons] <;> linarith
  · unfold stretchPath
    rw [List.length_set, List.length_set]
  · rcases pts with _ | ⟨a, _ | ⟨b, t⟩⟩
    · simp at hlen
    · simp at hlen
    · have hhead : (a :: b :: t).headD (0, 0) = a := rfl
      have hlast : (a :: b :: t).getLastD (0, 0) = (b :: t).getLastD a :=
        List.getLastD_cons (0, 0) a (b :: t)
      rw [hhead, hlast] at hord
      have hres : stretchPath (a :: b :: t) mod =
          pathStretchFirst a ((b :: t).getLastD a) mod ::
            (b :: t).set t.length (pathStretchLast a ((b :: t).getLastD a) mod) := by
        unfold stretchPath
        rw [hhead, hlast, List.set_cons_zero,
          show (a :: b :: t).length - 1 = t.length + 1 from by simp,
          List.set_cons_succ]
      have hsetlast : ((b :: t).set t.length
            (pathStretchLast a ((b :: t).getLastD a) mod)).getLastD
            (pathStretchFirst a ((b :: t).getLastD a) mod) =
          pathStretchLast a ((b :: t).getLastD a) mod := by
        rw [show t.length = (b :: t).length - 1 from by simp]
        exact getLastD_set_last (b :: t) _ _ (by simp)
      rw [hres, List.headD_cons,
        List.getLastD_cons (0, 0) (pathStretchFirst a ((b :: t).getLastD a) mod)
          ((b :: t).set t.length (pathStretchLast a ((b :: t).getLastD a) mod)),
        hsetlast]
      have key : (pathStretchLast a ((b :: t).getLastD a) mod).1 -
          (pathStretchFirst a ((b :: t).getLastD a) mod).1 =
          (((b :: t).getLastD a).1 - a.1) * mod := by
        unfold pathStretchFirst pathStretchLast
        ring
      have h0 : 0 ≤ (((b :: t).getLastD a).1 - a.1) * mod :=
        mul_nonneg (by linarith) (by linarith)
      linarith

/-- Witness for C8 at a concrete path and stretch factor. -/
theorem c8_witness :
    2 ≤ (buildPathPoints ⟨0, 10, 10, 0⟩ ⟨180, 10, -10, 0⟩ (0, 0)).length ∧
    ((buildPathPoints ⟨0, 10, 10, 0⟩ ⟨180, 10, -10, 0⟩ (0, 0)).headD (0, 0)).1 ≤
      ((buildPathPoints ⟨0, 10, 10, 0⟩ ⟨180, 10, -10, 0⟩ (0, 0)).getLastD (0, 0)).1 ∧
    (stretchPath [((0 : ℚ), (0 : ℚ)), ((10 : ℚ), (0 : ℚ))] 2).length =
      ([((0 : ℚ), (0 : ℚ)), ((10 : ℚ), (0 : ℚ))] : List (ℚ × ℚ)).length ∧
    ((stretchPath [((0 : ℚ), (0 : ℚ)), ((10 : ℚ), (0 : ℚ))] 2).headD (0, 0)).1 ≤
      ((stretchPath [((0 : ℚ), (0 : ℚ)), ((10 : ℚ), (0 : ℚ))] 2).getLastD (0, 0)).1 :=
  c8_labelPath_invariant ⟨0, 10, 10, 0⟩ ⟨180, 10, -10, 0⟩ (0, 0)
    [((0 : ℚ), (0 : ℚ)), ((10 : ℚ), (0 : ℚ))] 2
    (by decide) (by decide) (by decide)

/-- C9: regenerating the labels of a region-id list leaves every
stored label whose id is not a state label of a listed region (burg,
custom and unlisted-state labels alike) in place and unchanged — the
store restricted to unlisted ids is identical before and after — and
any label the update removes has a listed state-label id. -/
theorem c9_regenerate_frame (list : List Nat)
    (labels newLabels : List StoredLabel)
    (hnew : ∀ n ∈ newLabels, n.i ∈ list.map stateLabelId) :
    ((regenerateStateLabels list labels newLabels).filter
        (fun l => !(decide (l.i ∈ list.map stateLabelId))) =
      labels.filter (fun l => !(decide (l.i ∈ list.map stateLabelId)))) ∧
    (∀ l ∈ labels, l.i ∉ list.map stateLabelId →
      l ∈ regenerateStateLabels list labels newLabels) ∧
    (∀ l ∈ labels, l ∉ regenerateStateLabels list labels newLabels →
      l.i ∈ list.map stateLabelId) := by
  refine ⟨?_, ?_, ?_⟩
  · unfold regenerateStateLabels removeStateLabels
    have hnil : newLabels.filter
        (fun l => !(decide (l.i ∈ list.map stateLabelId))) = [] :=
      List.filter_eq_nil_iff.2 (fun n hn => by simp [hnew n hn])
    rw [List.filter_append, hnil, List.append_nil, List.filter_filter]
    simp only [Bool.and_self]
  · intro l hl hmem
    exact List.mem_append.2 (Or.inl (List.mem_filter.2 ⟨hl, by simp [hmem]⟩))
  · intro l hl hnot
    by_contra hmem
    exact hnot (List.mem_append.2 (Or.inl (List.mem_filter.2 ⟨hl, by simp [hmem]⟩)))

/-- Witness for C9: one burg label, one listed state label and one
unlisted state label, regenerating region 1 only. -/
theorem c9_witness :
    ((regenerateStateLabels [1]
        [⟨"burgLabel1", "burg", "A"⟩, ⟨"stateLabel1", "state", "B"⟩,
          ⟨"stateLabel2", "state", "C"⟩]
        [⟨"stateLabel1", "state", "B2"⟩]).filter
        (fun l => !(decide (l.i ∈ ([1] : List Nat).map stateLabelId))) =
      ([⟨"burgLabel1", "burg", "A"⟩, ⟨"stateLabel1", "state", "B"⟩,
          ⟨"stateLabel2", "state", "C"⟩] : List StoredLabel).filter
        (fun l => !(decide (l.i ∈ ([1] : List Nat).map stateLabelId)))) ∧
    (∀ l ∈ ([⟨"burgLabel1", "burg", "A"⟩, ⟨"stateLabel1", "state", "B"⟩,
          ⟨"stateLabel2", "state", "C"⟩] : List StoredLabel),
      l.i ∉ ([1] : List Nat).map stateLabelId →
      l ∈ regenerateStateLabels [1]
        [⟨"burgLabel1", "burg", "A"⟩, ⟨"stateLabel1", "state", "B"⟩,
          ⟨"stateLabel2", "state", "C"⟩]
        [⟨"stateLabel1", "state", "B2"⟩]) ∧
    (∀ l ∈ ([⟨"burgLabel1", "burg", "A"⟩, ⟨"stateLabel1", "state", "B"⟩,
          ⟨"stateLabel2", "state", "C"⟩] : List StoredLabel),
      l ∉ regenerateStateLabels [1]
        [⟨"burgLabel1", "burg", "A"⟩, ⟨"stateLabel1", "state", "B"⟩,
          ⟨"stateLabel2", "state", "C"⟩]
        [⟨"stateLabel1", "state", "B2"⟩] →
      l.i ∈ ([1] : List Nat).map stateLabelId) :=
  c9_regenerate_frame [1]
    [⟨"burgLabel1", "burg", "A"⟩, ⟨"stateLabel1", "state", "B"⟩,
      ⟨"stateLabel2", "state", "C"⟩]
    [⟨"stateLabel1", "state", "B2"⟩] (by decide)

/-- C10: the pair score is symmetric in the two rays: `getAngleDelta`,
`evaluateArc` and hence `scoreCurvature` are symmetric in their angle
arguments, and `pairScore` is invariant under swapping the rays of a
pair, so the score of an unordered pair is well defined. -/
theorem c10_pairScore_symmetric (a1 a2 : ℚ) (r1 r2 : Ray) :
    getAngleDelta a1 a2 = getAngleDelta a2 a1 ∧
    evaluateArc a1 a2 = evaluateArc a2 a1 ∧
    scoreCurvature a1 a2 = scoreCurvature a2 a1 ∧
    pairScore (r1, r2) = pairScore (r2, r1) := by
  have hd : ∀ b1 b2 : ℚ, getAngleDelta b1 b2 = getAngleDelta b2 b1 := by
    intro b1 b2
    unfold getAngleDelta
    rw [abs_sub_comm b1 b2]
  have ha : ∀ b1 b2 : ℚ, evaluateArc b1 b2 = evaluateArc b2 b1 := by
    intro b1 b2
    unfold evaluateArc
    rw [abs_sub_comm (|jsMod b1 180 - 90|) (|jsMod b2 180 - 90|)]
  have hc : ∀ b1 b2 : ℚ, scoreCurvature b1 b2 = scoreCurvature b2 b1 := by
    intro b1 b2
    unfold scoreCurvature
    rw [hd b1 b2, ha b1 b2]
  refine ⟨hd a1 a2, ha a1 a2, hc a1 a2, ?_⟩
  unfold pairScore
  simp only []
  rw [hc r1.angle r2.angle, add_comm (rayScore r1) (rayScore r2)]

end FMG
